import Mathlib

/-!
Verification of the WIG_Designer geometric mesher.

This file gives a shallow embedding, over the real numbers, of the geometry
pipeline of the repository:

* `src/geometry/components.py` — the data model (`WingStation`,
  `LiftingSurface`, `Fuselage`, `Vehicle`);
* `src/geometry/mesher.py`   — `StructuredMesher` (`_get_airfoil_coords`,
  `_position_profile`, `_loft_segment`, `_mesh_surface`, `_add_cap`,
  `_transform_grid`, `mesh_vehicle`, `_mesh_fuselage`);
* `src/gui/designer.py`      — `flip_winding` / `process_component`
  (mirror handling for open grids), and the progress percentages emitted by
  `run_heavy_union`;
* `src/utils/helpers.py`     — `get_rotation_matrix`.

Structured grids are represented as a list of spanwise slices, each slice a
list of chordwise points; this matches the `(n_span, n_chord, 3)` array the
mesher reshapes into a `pv.StructuredGrid` with dimensions
`[n_chord, n_span, 1]` (chordwise index fastest).  Floating point arithmetic
is idealised as exact real arithmetic; `int(...)` truncation of the
non-negative progress ratios in `run_heavy_union` is idealised as natural
number floor division.  The external pyvista kernel operations
(`extract_surface`, `triangulate`, `clean`, the boolean union itself) are
out of scope per the spec; the embedding keeps the data they would consume
(the grid and the list of cap polygons, each cap an ordered point ring).
-/

namespace WIG

/-- A 3D point (one row of an `(N, 3)` numpy array). -/
structure Point3 where
  x : ℝ
  y : ℝ
  z : ℝ

instance : Inhabited Point3 := ⟨⟨0, 0, 0⟩⟩

/-- A structured grid: outer list = spanwise slices, inner = chordwise points. -/
abbrev Grid := List (List Point3)

/-- Embeds `WingStation` from `components.py`: `y`, `chord`, `x` (leading edge),
`z`, `twist` (degrees), and the unpacked airfoil parameters `m`, `p`, `t`,
`r` (from `airfoil_params`). -/
structure WingStation where
  y : ℝ
  chord : ℝ
  x : ℝ
  z : ℝ
  twist : ℝ
  m : ℝ
  p : ℝ
  t : ℝ
  r : ℝ

/-- Embeds `LiftingSurface` from `components.py`; `orientation` is stored as its
three components `roll`, `pitch`, `yaw` (degrees), `position` as a point. -/
structure LiftingSurface where
  name : String
  stations : List WingStation
  position : Point3
  roll : ℝ
  pitch : ℝ
  yaw : ℝ
  mirrored : Bool

/-- Embeds `Fuselage` from `components.py`: a profile of `(x, radius)` pairs. -/
structure Fuselage where
  name : String
  profile : List (ℝ × ℝ)
  position : Point3

/-- Embeds `Vehicle` from `components.py`. -/
structure Vehicle where
  name : String
  surfaces : List LiftingSurface
  fuselage : Option Fuselage

/-- The resolution settings of `StructuredMesher.__init__`. -/
structure MesherConfig where
  chordRes : ℕ
  spanRes : ℕ
  fusRadRes : ℕ
  fusLongRes : ℕ

/-- Embeds `np.radians`: degrees to radians. -/
noncomputable def radians (d : ℝ) : ℝ := d * Real.pi / 180

/-! ### Rotations (`pyvista.rotate_x/y/z` and `helpers.get_rotation_matrix`)

`_transform_grid` applies `grid.rotate_x(roll)`, then `rotate_y(pitch)`,
then `rotate_z(yaw)`, each a right-handed rotation about the corresponding
fixed global axis through the origin, angles in degrees.  `helpers.py`
builds the single combined matrix `Rz @ Ry @ Rx` from the same three
angles.  Both styles are embedded below.  -/

/-- Embeds `rotate_x(deg)` as a point map. -/
noncomputable def rotate_x (deg : ℝ) (p : Point3) : Point3 :=
  let t := radians deg
  ⟨p.x, p.y * Real.cos t - p.z * Real.sin t, p.y * Real.sin t + p.z * Real.cos t⟩

/-- Embeds `rotate_y(deg)` as a point map. -/
noncomputable def rotate_y (deg : ℝ) (p : Point3) : Point3 :=
  let t := radians deg
  ⟨p.x * Real.cos t + p.z * Real.sin t, p.y, -p.x * Real.sin t + p.z * Real.cos t⟩

/-- Embeds `rotate_z(deg)` as a point map. -/
noncomputable def rotate_z (deg : ℝ) (p : Point3) : Point3 :=
  let t := radians deg
  ⟨p.x * Real.cos t - p.y * Real.sin t, p.x * Real.sin t + p.y * Real.cos t, p.z⟩

/-- A 3×3 matrix, row major. -/
structure Mat3 where
  m11 : ℝ
  m12 : ℝ
  m13 : ℝ
  m21 : ℝ
  m22 : ℝ
  m23 : ℝ
  m31 : ℝ
  m32 : ℝ
  m33 : ℝ

/-- Matrix product (`A @ B`). -/
noncomputable def mat_mul (A B : Mat3) : Mat3 :=
  ⟨A.m11 * B.m11 + A.m12 * B.m21 + A.m13 * B.m31,
   A.m11 * B.m12 + A.m12 * B.m22 + A.m13 * B.m32,
   A.m11 * B.m13 + A.m12 * B.m23 + A.m13 * B.m33,
   A.m21 * B.m11 + A.m22 * B.m21 + A.m23 * B.m31,
   A.m21 * B.m12 + A.m22 * B.m22 + A.m23 * B.m32,
   A.m21 * B.m13 + A.m22 * B.m23 + A.m23 * B.m33,
   A.m31 * B.m11 + A.m32 * B.m21 + A.m33 * B.m31,
   A.m31 * B.m12 + A.m32 * B.m22 + A.m33 * B.m32,
   A.m31 * B.m13 + A.m32 * B.m23 + A.m33 * B.m33⟩

/-- Matrix–vector application (`R @ v`). -/
noncomputable def mat_apply (A : Mat3) (p : Point3) : Point3 :=
  ⟨A.m11 * p.x + A.m12 * p.y + A.m13 * p.z,
   A.m21 * p.x + A.m22 * p.y + A.m23 * p.z,
   A.m31 * p.x + A.m32 * p.y + A.m33 * p.z⟩

/-- Embeds `Rx` from `helpers.get_rotation_matrix` (argument already in radians). -/
noncomputable def Rx_mat (phi : ℝ) : Mat3 :=
  ⟨1, 0, 0,
   0, Real.cos phi, -Real.sin phi,
   0, Real.sin phi, Real.cos phi⟩

/-- Embeds `Ry` from `helpers.get_rotation_matrix`. -/
noncomputable def Ry_mat (theta : ℝ) : Mat3 :=
  ⟨Real.cos theta, 0, Real.sin theta,
   0, 1, 0,
   -Real.sin theta, 0, Real.cos theta⟩

/-- Embeds `Rz` from `helpers.get_rotation_matrix`. -/
noncomputable def Rz_mat (psi : ℝ) : Mat3 :=
  ⟨Real.cos psi, -Real.sin psi, 0,
   Real.sin psi, Real.cos psi, 0,
   0, 0, 1⟩

/-- Embeds `helpers.get_rotation_matrix(roll, pitch, yaw)`: converts the three
angles to radians and returns `Rz @ Ry @ Rx`. -/
noncomputable def get_rotation_matrix (roll pitch yaw : ℝ) : Mat3 :=
  mat_mul (Rz_mat (radians yaw)) (mat_mul (Ry_mat (radians pitch)) (Rx_mat (radians roll)))

/-! ### Mirroring and winding (`designer.py` and `mesher.mesh_vehicle`) -/

/-- Embeds `grid.points[:, 1] *= -1`: negate the y-coordinate of one point. -/
def neg_y (p : Point3) : Point3 := ⟨p.x, -p.y, p.z⟩

/-- y-negation of a whole grid. -/
def neg_y_grid (g : Grid) : Grid := g.map (List.map neg_y)

/-- Embeds `flip_winding` from `designer.update_3d_view`: reshape to
`(d2, d1, d0, 3)` and reverse the fastest (chordwise) index, i.e. reverse
every spanwise slice. -/
def flip_winding (g : Grid) : Grid := g.map List.reverse

/-- The open-grid mirror path of `designer.process_component`
(`grid.points[:, 1] *= -1` followed by `flip_winding(grid)`). -/
def mirror_open_view (g : Grid) : Grid := flip_winding (neg_y_grid g)

/-- A watertight solid as point list plus face list (each face an ordered
list of vertex indices), the data `pv.PolyData` carries. -/
structure PolySolid where
  points : List Point3
  faces : List (List ℕ)

/-- Embeds `mesh.reflect((0,1,0), point=(0,0,0))`: negate all y-coordinates. -/
def reflect_y (s : PolySolid) : PolySolid := ⟨s.points.map neg_y, s.faces⟩

/-- Embeds `mesh.flip_faces()`: reverse the vertex order of every face. -/
def flip_faces (s : PolySolid) : PolySolid := ⟨s.points, s.faces.map List.reverse⟩

/-- The solid mirror path of `designer.process_component` /
`mesher.mesh_vehicle` (`reflect` then `flip_faces`). -/
def mirror_solid (s : PolySolid) : PolySolid := flip_faces (reflect_y s)

/-! ### Progress percentages of `designer.run_heavy_union`

`run_heavy_union` invokes `progress_callback` with:
`("Generating Solids...", 10)`; then `10 + int(i/count*30)` for each block
`i` in `range(count)`; then `40 + int(i/len(solids)*50)` for each merge
step `i` in `range(1, len(solids))`.  `int` truncation of the non-negative
ratio is embedded as natural floor division. -/

/-- Percentages of the refine loop: `10 + int(i/count*30)`, `i < count`. -/
def refine_percents (count : ℕ) : List ℕ :=
  (List.range count).map (fun i => 10 + i * 30 / count)

/-- Percentages of the merge loop: `40 + int(i/n*50)` for `i = 1 .. n-1`. -/
def merge_percents (n : ℕ) : List ℕ :=
  (List.range (n - 1)).map (fun i => 40 + (i + 1) * 50 / n)

/-- The full percent sequence reported by `run_heavy_union` when all
`count` blocks are truthy and refine into `n = count` solids is
`run_union_percents count count`; more generally `n` solids survive. -/
def run_union_percents (count n : ℕ) : List ℕ :=
  10 :: (refine_percents count ++ merge_percents n)

/-! ### Airfoil profile generator (`_get_airfoil_coords`)

`beta = np.linspace(0, np.pi, chord_res)`, `x = (1 - cos beta) / 2`,
the NACA 4-digit thickness polynomial with the trailing sample forced to
zero, a piecewise parabolic camber line active when `m > 0 and p > 0`, the
cubic reflex term added when `r != 0`, surface offsets along the local
normal, and the closed loop `upper-reversed ++ lower[1:]` with trailing
edge closure by averaging the first and last loop points. -/

/-- The k-th entry of `np.linspace(0, pi, cres)`. -/
noncomputable def beta_at (cres k : ℕ) : ℝ := (k : ℝ) * Real.pi / ((cres : ℝ) - 1)

/-- The k-th chordwise sample `x = (1 - cos beta) / 2` (half-cosine spacing). -/
noncomputable def x_at (cres k : ℕ) : ℝ := (1 - Real.cos (beta_at cres k)) / 2

/-- The 4-digit thickness polynomial `yt` (with `term5 = -0.1015`). -/
noncomputable def yt_poly (tmax xv : ℝ) : ℝ :=
  5 * tmax * (0.2969 * Real.sqrt xv - 0.1260 * xv - 0.3516 * xv ^ 2
    + 0.2843 * xv ^ 3 + (-0.1015) * xv ^ 4)

/-- Thickness at sample `k`; the trailing-most sample is forced to zero
(`yt[-1] = 0.0`). -/
noncomputable def yt_at (cres : ℕ) (tmax : ℝ) (k : ℕ) : ℝ :=
  if k = cres - 1 then 0 else yt_poly tmax (x_at cres k)

open Classical in
/-- Camber-line ordinate `yc`: the two parabolic segments when
`m > 0 and p > 0` (masks `x <= p` and `x > p`), else zero; plus the reflex
term `r * (x^3 - x^2) * 4.0` added when `r != 0`. -/
noncomputable def yc_at (m p r xv : ℝ) : ℝ :=
  (if 0 < m ∧ 0 < p then
    (if xv ≤ p then (m / p ^ 2) * (2 * p * xv - xv ^ 2)
     else (m / (1 - p) ^ 2) * ((1 - 2 * p) + 2 * p * xv - xv ^ 2))
   else 0)
  + (if r ≠ 0 then r * (xv ^ 3 - xv ^ 2) * 4 else 0)

open Classical in
/-- Camber-line slope `dyc_dx` (the reflex term does not contribute to the
slope in the source). -/
noncomputable def dyc_at (m p xv : ℝ) : ℝ :=
  if 0 < m ∧ 0 < p then
    (if xv ≤ p then (2 * m / p ^ 2) * (p - xv)
     else (2 * m / (1 - p) ^ 2) * (p - xv))
  else 0

/-- Local surface angle `theta = arctan(dyc_dx)`. -/
noncomputable def theta_at (m p xv : ℝ) : ℝ := Real.arctan (dyc_at m p xv)

/-- Upper-surface point `(xu, zu)` at sample `k`. -/
noncomputable def upper_at (cres : ℕ) (st : WingStation) (k : ℕ) : ℝ × ℝ :=
  let xv := x_at cres k
  let yt := yt_at cres st.t k
  let th := theta_at st.m st.p xv
  (xv - yt * Real.sin th, yc_at st.m st.p st.r xv + yt * Real.cos th)

/-- Lower-surface point `(xl, zl)` at sample `k`. -/
noncomputable def lower_at (cres : ℕ) (st : WingStation) (k : ℕ) : ℝ × ℝ :=
  let xv := x_at cres k
  let yt := yt_at cres st.t k
  let th := theta_at st.m st.p xv
  (xv + yt * Real.sin th, yc_at st.m st.p st.r xv - yt * Real.cos th)

/-- Trailing-edge closure: overwrite the first and last loop points with
their average (`x_loop[0] = x_loop[-1] = x_te`, same for `z`). -/
noncomputable def force_te_closure : List (ℝ × ℝ) → List (ℝ × ℝ)
  | [] => []
  | [q] => [((q.1 + q.1) / 2, (q.2 + q.2) / 2)]
  | a :: b :: rest =>
      let l := (b :: rest).getLastI
      let te := ((a.1 + l.1) / 2, (a.2 + l.2) / 2)
      te :: ((b :: rest).dropLast ++ [te])

/-- The closed 2D loop: `upper` leading-to-trailing reversed, then `lower`
without its duplicate leading point, with trailing-edge closure. -/
noncomputable def airfoil_loop (cres : ℕ) (st : WingStation) : List (ℝ × ℝ) :=
  force_te_closure
    (((List.range cres).map (upper_at cres st)).reverse
      ++ ((List.range cres).map (lower_at cres st)).drop 1)

/-- Embeds `_get_airfoil_coords`: the loop packed as `(x, 0, z)` points. -/
noncomputable def get_airfoil_coords (cres : ℕ) (st : WingStation) : List Point3 :=
  (airfoil_loop cres st).map (fun q => ⟨q.1, 0, q.2⟩)

/-! ### Station transform (`_position_profile`) -/

/-- Embeds `_position_profile` on one point: scale all coordinates by
`chord`, apply the twist update, translate by `(x, y, z)`.  In the source,
`x_vals = new_coords[:, 0]` is a numpy view; the assignment to column 0
happens before column 2 is computed, so the z update reads the
already-rotated x: `z' = (x*cos t - z*sin t)*sin t + z*cos t` — not a true
rotation of the `(x, z)` plane unless the twist is a multiple of 180
degrees. -/
noncomputable def position_point (st : WingStation) (c : Point3) : Point3 :=
  let sx := c.x * st.chord
  let sy := c.y * st.chord
  let sz := c.z * st.chord
  let th := radians (-st.twist)
  let nx := sx * Real.cos th - sz * Real.sin th
  ⟨nx + st.x,
   sy + st.y,
   nx * Real.sin th + sz * Real.cos th + st.z⟩

/-- Embeds `_position_profile` on the whole loop. -/
noncomputable def position_profile (coords : List Point3) (st : WingStation) :
    List Point3 :=
  coords.map (position_point st)

/-- The station transform as the spec (section 4.2) and claim C1 describe
it: scale by `chord`, a true rotation of the `(x, z)` plane by `-twist`
degrees, then translate by `(x, y, z)`.  Deliberately distinct from
`position_point`; used only to exhibit where the implementation's aliased
in-place update diverges from it. -/
noncomputable def position_point_spec (st : WingStation) (c : Point3) : Point3 :=
  let sx := c.x * st.chord
  let sy := c.y * st.chord
  let sz := c.z * st.chord
  let th := radians (-st.twist)
  ⟨sx * Real.cos th - sz * Real.sin th + st.x,
   sy + st.y,
   sx * Real.sin th + sz * Real.cos th + st.z⟩

/-! ### Surface lofter (`_loft_segment`, `_mesh_surface`) -/

/-- One interpolated point `(1 - t) * p1 + t * p2`. -/
noncomputable def blend_point (tv : ℝ) (a b : Point3) : Point3 :=
  ⟨(1 - tv) * a.x + tv * b.x, (1 - tv) * a.y + tv * b.y, (1 - tv) * a.z + tv * b.z⟩

/-- Embeds `_loft_segment`: the two positioned profiles blended at the `span_res`
parameters `t = np.linspace(0, 1, span_res)`. -/
noncomputable def loft_segment (cfg : MesherConfig) (st1 st2 : WingStation) : Grid :=
  let p1 := position_profile (get_airfoil_coords cfg.chordRes st1) st1
  let p2 := position_profile (get_airfoil_coords cfg.chordRes st2) st2
  (List.range cfg.spanRes).map (fun (j : ℕ) =>
    let tv := (j : ℝ) / ((cfg.spanRes : ℝ) - 1)
    List.zipWith (blend_point tv) p1 p2)

/-- The tail of the `all_points` accumulation in `_mesh_surface`: every
segment after the first drops its first spanwise slice. -/
noncomputable def loft_segments_rest (cfg : MesherConfig) :
    List WingStation → List Grid
  | s1 :: s2 :: rest =>
      (loft_segment cfg s1 s2).drop 1 :: loft_segments_rest cfg (s2 :: rest)
  | _ => []

/-- The `all_points` list of `_mesh_surface` (one block per station pair;
blocks after the first have their first slice dropped). -/
noncomputable def loft_segments (cfg : MesherConfig) :
    List WingStation → List Grid
  | s1 :: s2 :: rest =>
      loft_segment cfg s1 s2 :: loft_segments_rest cfg (s2 :: rest)
  | _ => []

/-- Embeds `_transform_grid` on one point: `rotate_x(roll)` then `rotate_y(pitch)`
then `rotate_z(yaw)` then translate by `position`. -/
noncomputable def transform_point (s : LiftingSurface) (p : Point3) : Point3 :=
  let q := rotate_z s.yaw (rotate_y s.pitch (rotate_x s.roll p))
  ⟨q.x + s.position.x, q.y + s.position.y, q.z + s.position.z⟩

/-- Embeds `_transform_grid` on a whole grid. -/
noncomputable def transform_grid (s : LiftingSurface) (g : Grid) : Grid :=
  g.map (List.map (transform_point s))

/-- Embeds `_mesh_surface(surface, solid=False)`: concatenate the segment blocks
(`np.concatenate` raises `ValueError` on an empty list, i.e. with fewer
than 2 stations) and apply the global transform. -/
noncomputable def mesh_surface_open (cfg : MesherConfig) (s : LiftingSurface) :
    Except String Grid :=
  let allPoints := loft_segments cfg s.stations
  if allPoints.isEmpty then
    Except.error "need at least one array to concatenate"
  else
    Except.ok (transform_grid s allPoints.flatten)

/-- Embeds `np.mean` of the y-coordinates of a point list. -/
noncomputable def mean_y (ps : List Point3) : ℝ := (ps.map Point3.y).sum / ps.length

/-! ### Cap/solidifier (`_add_cap` and the solid branch of `_mesh_surface`)

`extract_surface`, `triangulate` and `clean` are external kernel calls;
the embedding records the grid together with the ordered cap polygons that
`_add_cap` appends. -/

/-- A grid plus its cap polygons (each an ordered ring of points). -/
structure SurfSolid where
  base : Grid
  caps : List (List Point3)

/-- Embeds `_add_cap`: append one polygon face built from the ring's points, in
ring order, reversed when the flip flag is set. -/
def add_cap (sol : SurfSolid) (ring : List Point3) (flipFlag : Bool) : SurfSolid :=
  ⟨sol.base, sol.caps ++ [if flipFlag then ring.reverse else ring]⟩

open Classical in
/-- Embeds `_mesh_surface(surface, solid=True)`: cap the root ring (the first
spanwise slice, flipped) only when `abs(root_y_avg) > 1e-3`; always cap
the tip ring (the last slice, unflipped). -/
noncomputable def mesh_surface_solid (cfg : MesherConfig) (s : LiftingSurface) :
    Except String SurfSolid :=
  (mesh_surface_open cfg s).map (fun grid =>
    let rootPts := grid.headI
    let rootYavg := mean_y rootPts
    let poly0 : SurfSolid := ⟨grid, []⟩
    let poly1 := if 1e-3 < |rootYavg| then add_cap poly0 rootPts true else poly0
    add_cap poly1 grid.getLastI false)

/-! ### Fuselage revolver (`_mesh_fuselage`, open mode) -/

/-- Embeds `np.interp` on a profile sorted by ascending x: clamp at the ends,
piecewise linear in between. -/
noncomputable def interp_profile : List (ℝ × ℝ) → ℝ → ℝ
  | [], _ => 0
  | [q], _ => q.2
  | q1 :: q2 :: rest, xv =>
      if xv ≤ q1.1 then q1.2
      else if xv ≤ q2.1 then q1.2 + (xv - q1.1) * (q2.2 - q1.2) / (q2.1 - q1.1)
      else interp_profile (q2 :: rest) xv

/-- Embeds `_mesh_fuselage(fuselage, solid=False)`: resample the profile onto a
uniform longitudinal grid, sweep a full ring of `fus_rad_res` points at
each station, translate by the fuselage position. -/
noncomputable def mesh_fuselage_open (cfg : MesherConfig) (f : Fuselage) : Grid :=
  let x0 := (f.profile.headI).1
  let x1 := (f.profile.getLastI).1
  (List.range cfg.fusLongRes).map (fun (j : ℕ) =>
    let xv := x0 + (j : ℝ) * (x1 - x0) / ((cfg.fusLongRes : ℝ) - 1)
    let rv := interp_profile f.profile xv
    (List.range cfg.fusRadRes).map (fun (i : ℕ) =>
      let th := (i : ℝ) * (2 * Real.pi) / ((cfg.fusRadRes : ℝ) - 1)
      ⟨xv + f.position.x, rv * Real.cos th + f.position.y,
       rv * Real.sin th + f.position.z⟩))

/-! ### Vehicle assembler (`mesh_vehicle`, open mode)

For an open (non-solid) mirrored instance `mesh_vehicle` only negates the
y-coordinates (`mirrored_mesh.points[:, 1] *= -1`); the winding flip is
left to the view.  Any exception raised while meshing one component
propagates: there is no try/except in `mesh_vehicle`. -/

/-- The surface loop of `mesh_vehicle` (solid=False): primary instance,
then — when `mirrored` — the y-negated copy named `name + "_Mirror"`. -/
noncomputable def mesh_surfaces_open (cfg : MesherConfig) :
    List LiftingSurface → Except String (List (String × Grid))
  | [] => Except.ok []
  | s :: rest => do
    let mesh ← mesh_surface_open cfg s
    let tail ← mesh_surfaces_open cfg rest
    let entry :=
      (s.name, mesh) ::
        (if s.mirrored then [(s.name ++ "_Mirror", neg_y_grid mesh)] else [])
    pure (entry ++ tail)

/-- Embeds `mesh_vehicle(vehicle, solid=False)`: all surfaces (with mirrors),
then the optional fuselage. -/
noncomputable def mesh_vehicle_open (cfg : MesherConfig) (v : Vehicle) :
    Except String (List (String × Grid)) := do
  let sp ← mesh_surfaces_open cfg v.surfaces
  match v.fuselage with
  | some f => pure (sp ++ [(f.name, mesh_fuselage_open cfg f)])
  | none => pure sp

/-! ### Concrete instances used by the scenario theorems -/

/-- Scenario A root station: `WingStation(y=0, chord=2, x=0, z=0, twist=0,
params=[0, 0, 0.12, 0])`. -/
noncomputable def st1A : WingStation := ⟨0, 2, 0, 0, 0, 0, 0, 0.12, 0⟩

/-- Scenario A tip station: `WingStation(y=5, chord=1, x=1, z=0.5, twist=0,
params=[0, 0, 0.12, 0])`. -/
noncomputable def st2A : WingStation := ⟨5, 1, 1, 0.5, 0, 0, 0, 0.12, 0⟩

/-- The Scenario A surface (default global position and orientation). -/
noncomputable def surfA : LiftingSurface :=
  ⟨"Main_Wing", [st1A, st2A], ⟨0, 0, 0⟩, 0, 0, 0, true⟩

/-- Scenario A resolutions: `chord_res=30, span_res=15`. -/
def cfgA : MesherConfig := ⟨30, 15, 36, 50⟩

/-- The Scenario A open grid (the value `mesh_surface_open` returns). -/
noncomputable def gridA : Grid :=
  transform_grid surfA (loft_segments cfgA surfA.stations).flatten

/-- A station with 90 degrees of (negative) twist at the origin, chord 1:
`WingStation(y=0, chord=1, x=0, z=0, twist=-90, params=[0, 0, 0.12, 0])`.
Exhibits the aliasing divergence of the station transform. -/
noncomputable def stT : WingStation := ⟨0, 1, 0, 0, -90, 0, 0, 0.12, 0⟩

/-- A symmetric 2-station test wing for the mirroring counterexample. -/
noncomputable def stB1 : WingStation := ⟨0, 1, 0, 0, 0, 0, 0, 0.12, 0⟩

/-- Its tip station at `y = 1`. -/
noncomputable def stB2 : WingStation := ⟨1, 1, 0, 0, 0, 0, 0, 0.12, 0⟩

/-- The mirrored test surface. -/
noncomputable def surfB : LiftingSurface :=
  ⟨"Wing_B", [stB1, stB2], ⟨0, 0, 0⟩, 0, 0, 0, true⟩

/-- A vehicle holding only the mirrored test surface. -/
noncomputable def vehB : Vehicle := ⟨"Craft_B", [surfB], none⟩

/-- Minimal resolutions for the mirroring counterexample. -/
def cfgB : MesherConfig := ⟨3, 2, 4, 4⟩

/-- The open grid of the test surface. -/
noncomputable def gridB : Grid :=
  transform_grid surfB (loft_segments cfgB surfB.stations).flatten

/-- A degenerate all-zero station (zero chord, zero thickness) used by the
witness instances. -/
noncomputable def stW : WingStation := ⟨0, 0, 0, 0, 0, 0, 0, 0, 0⟩

/-- A meshable 2-station degenerate surface. -/
noncomputable def surfW : LiftingSurface :=
  ⟨"W", [stW, stW], ⟨0, 0, 0⟩, 0, 0, 0, false⟩

/-- Degenerate resolutions (`chord_res=0, span_res=2`) whose grid is
`[[], []]`. -/
def cfgW : MesherConfig := ⟨0, 2, 0, 0⟩

/-- A surface with a single station: meshing it must fail. -/
noncomputable def surfBad : LiftingSurface :=
  ⟨"Bad", [stW], ⟨0, 0, 0⟩, 0, 0, 0, false⟩

/-- A vehicle whose first surface fails and whose second is meshable. -/
noncomputable def vehBad : Vehicle := ⟨"CraftBad", [surfBad, surfW], none⟩

end WIG

namespace WIG

/-! ## Helper lemmas -/

theorem neg_y_neg_y (p : Point3) : neg_y (neg_y p) = p := by
  cases p
  simp [neg_y]

theorem neg_y_comp_self : neg_y ∘ neg_y = id := funext neg_y_neg_y

theorem mirror_open_view_involutive (g : Grid) :
    mirror_open_view (mirror_open_view g) = g := by
  simp only [mirror_open_view, flip_winding, neg_y_grid, List.map_map]
  have h : ∀ row : List Point3,
      (List.reverse ∘ List.map neg_y) ((List.reverse ∘ List.map neg_y) row) = row := by
    intro row
    simp [Function.comp, List.map_reverse, List.reverse_reverse, List.map_map,
      neg_y_comp_self]
  calc g.map ((List.reverse ∘ List.map neg_y) ∘ (List.reverse ∘ List.map neg_y))
      = g.map id := by
        refine List.map_congr_left ?_
        intro row _
        exact h row
    _ = g := List.map_id g

theorem mirror_solid_involutive (s : PolySolid) :
    mirror_solid (mirror_solid s) = s := by
  cases s
  simp [mirror_solid, flip_faces, reflect_y, List.map_map, Function.comp,
    neg_y_comp_self, List.reverse_reverse]

/-! ## C6 -/

/-- C6: the mirror operation — y-negation together with the
representation-appropriate winding correction (chordwise-index reversal for
open structured grids as in `process_component`, face-order flip for
solids) — is an involution: applying it twice reproduces the original
point set and winding exactly. -/
theorem c6_mirror_involution :
    (∀ g : Grid, mirror_open_view (mirror_open_view g) = g) ∧
    (∀ s : PolySolid, mirror_solid (mirror_solid s) = s) :=
  ⟨mirror_open_view_involutive, mirror_solid_involutive⟩

/-! ## C10 -/

/-- C10: the two rotation-composition styles of the source agree: applying
`rotate_x(roll)`, `rotate_y(pitch)`, `rotate_z(yaw)` sequentially about the
fixed global axes (as `_transform_grid` does) maps every point where the
single combined matrix `Rz @ Ry @ Rx` of `get_rotation_matrix` sends it. -/
theorem c10_rotation_equiv (roll pitch yaw : ℝ) (p : Point3) :
    rotate_z yaw (rotate_y pitch (rotate_x roll p)) =
      mat_apply (get_rotation_matrix roll pitch yaw) p := by
  simp only [rotate_x, rotate_y, rotate_z, mat_apply, get_rotation_matrix,
    mat_mul, Rx_mat, Ry_mat, Rz_mat]
  rw [Point3.mk.injEq]
  refine ⟨by ring, by ring, by ring⟩

/-! ## Helper lemmas about the lofting pipeline -/

theorem getI_lt {α : Type} [Inhabited α] (l : List α) {n : ℕ} (h : n < l.length) :
    l.getI n = l[n] :=
  List.getD_eq_getElem l default h

theorem headI_of_head? {α : Type} [Inhabited α] {l : List α} {a : α}
    (h : l.head? = some a) : l.headI = a := by
  cases l with
  | nil => simp at h
  | cons b t =>
    have hba : b = a := by simpa using h
    exact hba

theorem getLastI_of_getLast? {α : Type} [Inhabited α] {l : List α} {a : α}
    (h : l.getLast? = some a) : l.getLastI = a := by
  rw [List.getLastI_eq_getLast?, h]

theorem head?_range_map {α : Type} (f : ℕ → α) (n : ℕ) (h : 1 ≤ n) :
    ((List.range n).map f).head? = some (f 0) := by
  obtain ⟨m, rfl⟩ : ∃ m, n = m + 1 := ⟨n - 1, by omega⟩
  rw [List.range_succ_eq_map]
  simp

theorem getLast?_range_map {α : Type} (f : ℕ → α) (n : ℕ) (h : 1 ≤ n) :
    ((List.range n).map f).getLast? = some (f (n - 1)) := by
  obtain ⟨m, rfl⟩ : ∃ m, n = m + 1 := ⟨n - 1, by omega⟩
  rw [List.range_succ]
  simp

theorem blend_point_zero (a b : Point3) : blend_point 0 a b = a := by
  cases a
  simp [blend_point]

theorem blend_point_one (a b : Point3) : blend_point 1 a b = b := by
  cases b
  simp [blend_point]

theorem zipWith_blend_zero (p q : List Point3) (h : p.length = q.length) :
    List.zipWith (blend_point 0) p q = p := by
  induction p generalizing q with
  | nil => rfl
  | cons a as ih =>
    cases q with
    | nil => simp at h
    | cons b bs =>
      simp only [List.zipWith, blend_point_zero, List.cons.injEq, true_and]
      exact ih bs (by simpa using h)

theorem zipWith_blend_one (p q : List Point3) (h : p.length = q.length) :
    List.zipWith (blend_point 1) p q = q := by
  induction p generalizing q with
  | nil =>
    cases q with
    | nil => rfl
    | cons b bs => simp at h
  | cons a as ih =>
    cases q with
    | nil => simp at h
    | cons b bs =>
      simp only [List.zipWith, blend_point_one, List.cons.injEq, true_and]
      exact ih bs (by simpa using h)

theorem length_force_te_closure (L : List (ℝ × ℝ)) :
    (force_te_closure L).length = L.length := by
  match L with
  | [] => rfl
  | [q] => rfl
  | a :: b :: rest => simp [force_te_closure]

theorem length_airfoil_loop (cres : ℕ) (st : WingStation) :
    (airfoil_loop cres st).length = cres + (cres - 1) := by
  simp [airfoil_loop, length_force_te_closure]

theorem length_get_airfoil_coords (cres : ℕ) (st : WingStation) :
    (get_airfoil_coords cres st).length = cres + (cres - 1) := by
  simp [get_airfoil_coords, length_airfoil_loop]

theorem length_position_profile (coords : List Point3) (st : WingStation) :
    (position_profile coords st).length = coords.length := by
  simp [position_profile]

theorem transform_point_id (s : LiftingSurface) (p : Point3)
    (hr : s.roll = 0) (hp : s.pitch = 0) (hy : s.yaw = 0)
    (hpos : s.position = ⟨0, 0, 0⟩) :
    transform_point s p = p := by
  cases p
  simp [transform_point, rotate_x, rotate_y, rotate_z, radians, hr, hp, hy, hpos]

theorem transform_grid_id (s : LiftingSurface) (g : Grid)
    (hr : s.roll = 0) (hp : s.pitch = 0) (hy : s.yaw = 0)
    (hpos : s.position = ⟨0, 0, 0⟩) :
    transform_grid s g = g := by
  have hfun : transform_point s = id := by
    funext p
    exact transform_point_id s p hr hp hy hpos
  simp [transform_grid, hfun]

/-- With exactly two stations the loft is the single segment between them. -/
theorem loft_segments_two (cfg : MesherConfig) (st1 st2 : WingStation) :
    loft_segments cfg [st1, st2] = [loft_segment cfg st1 st2] := rfl

theorem mesh_surface_open_two (cfg : MesherConfig) (s : LiftingSurface)
    (st1 st2 : WingStation) (hst : s.stations = [st1, st2]) :
    mesh_surface_open cfg s = Except.ok (transform_grid s (loft_segment cfg st1 st2)) := by
  rw [mesh_surface_open, hst, loft_segments_two]
  simp

theorem loft_segment_head? (cfg : MesherConfig) (st1 st2 : WingStation)
    (h : 1 ≤ cfg.spanRes) :
    (loft_segment cfg st1 st2).head?
      = some (position_profile (get_airfoil_coords cfg.chordRes st1) st1) := by
  rw [loft_segment]
  rw [head?_range_map _ _ h]
  congr 1
  rw [show ((0 : ℕ) : ℝ) / ((cfg.spanRes : ℝ) - 1) = 0 by simp]
  refine zipWith_blend_zero _ _ ?_
  rw [length_position_profile, length_position_profile,
    length_get_airfoil_coords, length_get_airfoil_coords]

theorem loft_segment_getLast? (cfg : MesherConfig) (st1 st2 : WingStation)
    (h : 2 ≤ cfg.spanRes) :
    (loft_segment cfg st1 st2).getLast?
      = some (position_profile (get_airfoil_coords cfg.chordRes st2) st2) := by
  rw [loft_segment]
  rw [getLast?_range_map _ _ (by omega)]
  congr 1
  have hcast : ((cfg.spanRes - 1 : ℕ) : ℝ) = (cfg.spanRes : ℝ) - 1 := by
    have : (1 : ℕ) ≤ cfg.spanRes := by omega
    push_cast [this]
    ring
  have hne : (cfg.spanRes : ℝ) - 1 ≠ 0 := by
    have h2 : (2 : ℝ) ≤ (cfg.spanRes : ℝ) := by exact_mod_cast h
    intro hc
    nlinarith
  rw [hcast, div_self hne]
  refine zipWith_blend_one _ _ ?_
  rw [length_position_profile, length_position_profile,
    length_get_airfoil_coords, length_get_airfoil_coords]

/-- y-coordinates of a positioned profile. -/
theorem map_y_position_profile (coords : List Point3) (st : WingStation) :
    (position_profile coords st).map Point3.y
      = (coords.map Point3.y).map (fun v => v * st.chord + st.y) := by
  simp only [position_profile, List.map_map]
  rfl

/-- The generator emits all points with `y = 0`. -/
theorem map_y_get_airfoil_coords (cres : ℕ) (st : WingStation) :
    (get_airfoil_coords cres st).map Point3.y
      = List.replicate (cres + (cres - 1)) (0 : ℝ) := by
  rw [← length_airfoil_loop cres st]
  simp only [get_airfoil_coords, List.map_map]
  have : (Point3.y ∘ fun q : ℝ × ℝ => (⟨q.1, 0, q.2⟩ : Point3)) = fun _ => (0 : ℝ) :=
    rfl
  rw [this, List.map_const']

theorem mean_y_const (ps : List Point3) (a : ℝ)
    (h : ps.map Point3.y = List.replicate ps.length a) (hne : ps.length ≠ 0) :
    mean_y ps = a := by
  rw [mean_y, h, List.sum_replicate, nsmul_eq_mul, mul_comm, mul_div_assoc,
    div_self (Nat.cast_ne_zero.2 hne), mul_one]

/-- y-coordinates of a positioned airfoil profile: constantly the station y. -/
theorem map_y_profile_const (cres : ℕ) (st : WingStation) :
    (position_profile (get_airfoil_coords cres st) st).map Point3.y
      = List.replicate (cres + (cres - 1)) (0 * st.chord + st.y) := by
  rw [map_y_position_profile, map_y_get_airfoil_coords, List.map_replicate]

/-! ## C1 -/

/-- The loft endpoints of a 2-station surface (at zero global placement)
equal the program's positioned loops — the station transform as
implemented, aliased z update included.  The divergence that sinks claim
C1 lives entirely inside that transform, not in the loft. -/
theorem loft_endpoints_positioned (cfg : MesherConfig) (s : LiftingSurface)
    (st1 st2 : WingStation) (g : Grid)
    (hst : s.stations = [st1, st2]) (hres : 2 ≤ cfg.spanRes)
    (hr : s.roll = 0) (hp : s.pitch = 0) (hy : s.yaw = 0)
    (hpos : s.position = ⟨0, 0, 0⟩)
    (hg : mesh_surface_open cfg s = Except.ok g) :
    g.head? = some (position_profile (get_airfoil_coords cfg.chordRes st1) st1) ∧
    g.getLast? = some (position_profile (get_airfoil_coords cfg.chordRes st2) st2) := by
  rw [mesh_surface_open_two cfg s st1 st2 hst,
    transform_grid_id s _ hr hp hy hpos, Except.ok.injEq] at hg
  subst hg
  exact ⟨loft_segment_head? cfg st1 st2 (by omega),
    loft_segment_getLast? cfg st1 st2 hres⟩

/-- The degenerate instance used by several witnesses: with `chord_res=0`
the loops are empty and the loft of `surfW` is the grid `[[], []]`. -/
theorem mesh_surface_open_W :
    mesh_surface_open cfgW surfW = Except.ok ([[], []] : Grid) := rfl

/-- C1: the code contradicts the claimed station transform.
`_position_profile` overwrites the x column in place before computing z
(`x_vals` is a numpy view of column 0), so the z update reads the
already-rotated x.  At the twisted station `stT` (twist = -90 degrees,
chord 1, at the origin) the loop point `(1, 0, 0)` is mapped by the
program to `(0, 0, 0)`, while the claimed scale/rotate/translate transform
of spec section 4.2 sends it to `(0, 0, 1)`; hence the grid's first slice
at a twisted station is not the claim's transformed loop.  The spec's
rotation is clearly the intent and the aliasing a slip: code bug. -/
theorem c1_code_bug :
    position_point stT ⟨1, 0, 0⟩ = ⟨0, 0, 0⟩ ∧
    position_point_spec stT ⟨1, 0, 0⟩ = ⟨0, 0, 1⟩ ∧
    position_point stT ⟨1, 0, 0⟩ ≠ position_point_spec stT ⟨1, 0, 0⟩ := by
  have hth : radians (-stT.twist) = Real.pi / 2 := by
    rw [show -stT.twist = (90 : ℝ) by norm_num [stT], radians]
    ring
  have h1 : position_point stT ⟨1, 0, 0⟩ = ⟨0, 0, 0⟩ := by
    simp only [position_point, hth, Real.cos_pi_div_two, Real.sin_pi_div_two]
    rw [Point3.mk.injEq]
    norm_num [stT]
  have h2 : position_point_spec stT ⟨1, 0, 0⟩ = ⟨0, 0, 1⟩ := by
    simp only [position_point_spec, hth, Real.cos_pi_div_two, Real.sin_pi_div_two]
    rw [Point3.mk.injEq]
    norm_num [stT]
  refine ⟨h1, h2, ?_⟩
  rw [h1, h2]
  intro hc
  have hz := congrArg Point3.z hc
  norm_num at hz

/-! ## C2 -/

theorem gridA_eq : gridA = loft_segment cfgA st1A st2A := by
  have h1 : gridA = transform_grid surfA (loft_segment cfgA st1A st2A) := by
    show transform_grid surfA (loft_segments cfgA surfA.stations).flatten = _
    rw [show surfA.stations = [st1A, st2A] from rfl, loft_segments_two]
    simp
  rw [h1, transform_grid_id _ _ rfl rfl rfl rfl]

/-- C2: Scenario A — the two stations `(y=0, chord=2, x=0, z=0, twist=0,
params=[0,0,0.12,0])` and `(y=5, chord=1, x=1, z=0.5, twist=0,
params=[0,0,0.12,0])` meshed open with `chord_res=30, span_res=15` give a
grid of 15 spanwise slices of `30*2-1 = 59` chordwise points each, with
root-slice mean y exactly 0 and tip-slice mean y exactly 5. -/
theorem c2_scenarioA :
    mesh_surface_open cfgA surfA = Except.ok gridA ∧
    gridA.length = 15 ∧
    gridA.map List.length = List.replicate 15 (30 * 2 - 1) ∧
    mean_y gridA.headI = 0 ∧
    mean_y gridA.getLastI = 5 := by
  have hh : gridA.head?
      = some (position_profile (get_airfoil_coords cfgA.chordRes st1A) st1A) := by
    rw [gridA_eq]
    exact loft_segment_head? cfgA st1A st2A (by decide)
  have hl : gridA.getLast?
      = some (position_profile (get_airfoil_coords cfgA.chordRes st2A) st2A) := by
    rw [gridA_eq]
    exact loft_segment_getLast? cfgA st1A st2A (by decide)
  refine ⟨?_, ?_, ?_, ?_, ?_⟩
  · rw [mesh_surface_open_two cfgA surfA st1A st2A rfl, gridA_eq,
      transform_grid_id _ _ rfl rfl rfl rfl]
  · rw [gridA_eq, loft_segment]
    simp [cfgA]
  · rw [gridA_eq, loft_segment]
    simp only [List.map_map]
    refine List.eq_replicate_iff.2 ⟨by simp [cfgA], ?_⟩
    intro b hb
    simp only [List.mem_map, List.mem_range] at hb
    obtain ⟨j, hj, rfl⟩ := hb
    simp [List.length_zipWith, length_position_profile,
      length_get_airfoil_coords, cfgA]
  · rw [headI_of_head? hh]
    refine mean_y_const _ 0 ?_ ?_
    · rw [length_position_profile, length_get_airfoil_coords]
      have h0 : (0 : ℝ) * st1A.chord + st1A.y = 0 := by
        simp [st1A]
      rw [← h0]
      exact map_y_profile_const cfgA.chordRes st1A
    · rw [length_position_profile, length_get_airfoil_coords]
      decide
  · rw [getLastI_of_getLast? hl]
    refine mean_y_const _ 5 ?_ ?_
    · rw [length_position_profile, length_get_airfoil_coords]
      have h5 : (0 : ℝ) * st2A.chord + st2A.y = 5 := by
        simp [st2A]
      rw [← h5]
      exact map_y_profile_const cfgA.chordRes st2A
    · rw [length_position_profile, length_get_airfoil_coords]
      decide

/-! ## C3 -/

/-- C3 (counterexample): the claim admits any reflex `r`, but with `m=0`,
`p=0`, `r=1` the camber line at the generated mid-chord sample
`x_at 3 1 = 1/2` equals `-1/2`, not 0: the reflex term is added to the
camber line even for `m=0`. -/
theorem c3_cex : yc_at 0 0 1 (x_at 3 1) ≠ 0 := by
  have hb : beta_at 3 1 = Real.pi / 2 := by
    rw [beta_at]
    norm_num
  have hx : x_at 3 1 = 1 / 2 := by
    rw [x_at, hb, Real.cos_pi_div_two]
    norm_num
  rw [hx, yc_at]
  norm_num

/-- C3 (amended): for `m = 0` and reflex `r = 0` (any camber position,
thickness, resolution) the generated camber line is identically zero and
the upper and lower surface points are mirror images about `z = 0`
(equal x, opposite z, at every sample index). -/
theorem c3_symmetric (yv ch x0 z0 tw pv tv : ℝ) (cres k : ℕ) :
    (∀ xq : ℝ, yc_at 0 pv 0 xq = 0) ∧
    (upper_at cres ⟨yv, ch, x0, z0, tw, 0, pv, tv, 0⟩ k).1
      = (lower_at cres ⟨yv, ch, x0, z0, tw, 0, pv, tv, 0⟩ k).1 ∧
    (upper_at cres ⟨yv, ch, x0, z0, tw, 0, pv, tv, 0⟩ k).2
      = -(lower_at cres ⟨yv, ch, x0, z0, tw, 0, pv, tv, 0⟩ k).2 := by
  have hyc : ∀ xq : ℝ, yc_at 0 pv 0 xq = 0 := by
    intro xq
    rw [yc_at]
    simp [lt_irrefl]
  have hdyc : ∀ xq : ℝ, dyc_at 0 pv xq = 0 := by
    intro xq
    rw [dyc_at]
    simp [lt_irrefl]
  refine ⟨hyc, ?_, ?_⟩
  · simp [upper_at, lower_at, theta_at, hdyc, hyc, Real.arctan_zero,
      Real.sin_zero, Real.cos_zero]
  · simp [upper_at, lower_at, theta_at, hdyc, hyc, Real.arctan_zero,
      Real.sin_zero, Real.cos_zero]

/-! ## C9 -/

theorem loft_segments_of_short (cfg : MesherConfig) (stations : List WingStation)
    (h : stations.length < 2) : loft_segments cfg stations = [] := by
  cases stations with
  | nil => rfl
  | cons a t =>
    cases t with
    | nil => rfl
    | cons b t2 =>
      simp only [List.length_cons] at h
      omega

theorem mesh_surface_open_few (cfg : MesherConfig) (s : LiftingSurface)
    (h : s.stations.length < 2) :
    mesh_surface_open cfg s
      = Except.error "need at least one array to concatenate" := by
  simp only [mesh_surface_open, loft_segments_of_short cfg s.stations h,
    List.isEmpty_nil, if_true]

/-- C9: meshing a surface with fewer than 2 stations fails before any
lofting: `all_points` stays empty and the empty concatenation raises, in
both open and solid mode — no mesh is ever returned and the input is never
coerced. -/
theorem c9_reject_few_stations (cfg : MesherConfig) (s : LiftingSurface)
    (h : s.stations.length < 2) :
    mesh_surface_open cfg s
        = Except.error "need at least one array to concatenate" ∧
    mesh_surface_solid cfg s
        = Except.error "need at least one array to concatenate" := by
  refine ⟨mesh_surface_open_few cfg s h, ?_⟩
  simp only [mesh_surface_solid, mesh_surface_open_few cfg s h]
  rfl

/-- Witness for C9 at the concrete one-station surface. -/
theorem c9_reject_few_stations_witness :
    mesh_surface_open cfgW surfBad
        = Except.error "need at least one array to concatenate" ∧
    mesh_surface_solid cfgW surfBad
        = Except.error "need at least one array to concatenate" :=
  c9_reject_few_stations cfgW surfBad (by decide)

/-! ## C4 -/

open Classical in
/-- C4: in solid mode the root ring (first spanwise slice, in flipped
order) is capped exactly when `abs(root_y_avg) > 1e-3`, and the tip ring
(last slice) is always capped: the produced cap list is the optional
flipped root ring followed by the tip ring. -/
theorem c4_cap_rule (cfg : MesherConfig) (s : LiftingSurface) (g : Grid)
    (hg : mesh_surface_open cfg s = Except.ok g) :
    mesh_surface_solid cfg s = Except.ok
      ⟨g, (if 1e-3 < |mean_y g.headI| then [g.headI.reverse] else [])
        ++ [g.getLastI]⟩ := by
  simp only [mesh_surface_solid, hg, Except.map]
  congr 1
  by_cases hc : 1e-3 < |mean_y g.headI|
  · simp [hc, add_cap]
  · simp [hc, add_cap]

open Classical in
/-- Witness for C4 at the degenerate instance. -/
theorem c4_cap_rule_witness :
    mesh_surface_open cfgW surfW = Except.ok ([[], []] : Grid) ∧
    mesh_surface_solid cfgW surfW = Except.ok
      ⟨([[], []] : Grid),
        (if 1e-3 < |mean_y ([[], []] : Grid).headI|
          then [([[], []] : Grid).headI.reverse] else [])
          ++ [([[], []] : Grid).getLastI]⟩ :=
  ⟨mesh_surface_open_W, c4_cap_rule cfgW surfW [[], []] mesh_surface_open_W⟩

/-! ## C8 -/

theorem mesh_surfaces_open_error_head (cfg : MesherConfig)
    (bad : LiftingSurface) (rest : List LiftingSurface)
    (hbad : bad.stations.length < 2) :
    mesh_surfaces_open cfg (bad :: rest)
      = Except.error "need at least one array to concatenate" := by
  simp only [mesh_surfaces_open, mesh_surface_open_few cfg bad hbad]
  rfl

theorem mesh_vehicle_open_error (cfg : MesherConfig) (v : Vehicle) (e : String)
    (h : mesh_surfaces_open cfg v.surfaces = Except.error e) :
    mesh_vehicle_open cfg v = Except.error e := by
  simp only [mesh_vehicle_open, h]
  rfl

/-- C8 (counterexample): in the vehicle whose first surface has a single
station and whose second surface is meshable, `mesh_vehicle` aborts the
whole regeneration with the bare concatenate error — it produces no part
for the meshable second surface and attaches no part identity, although
that surface meshes fine on its own. -/
theorem c8_cex :
    mesh_vehicle_open cfgW vehBad
        = Except.error "need at least one array to concatenate" ∧
    mesh_surface_open cfgW surfW = Except.ok ([[], []] : Grid) :=
  ⟨mesh_vehicle_open_error cfgW vehBad _
      (mesh_surfaces_open_error_head cfgW surfBad [surfW] (by decide)),
    mesh_surface_open_W⟩

/-- C8 (amended): `mesh_vehicle` has no per-component error handling: if
the first component's geometry generation fails, the failure propagates
unchanged out of `mesh_vehicle`, no part of the remaining components is
produced, and no failing-part identity is attached; failures are only
caught at the outer view boundary. -/
theorem c8_propagates (cfg : MesherConfig) (v : Vehicle) (bad : LiftingSurface)
    (rest : List LiftingSurface) (hs : v.surfaces = bad :: rest)
    (hbad : bad.stations.length < 2) :
    mesh_vehicle_open cfg v
      = Except.error "need at least one array to concatenate" :=
  mesh_vehicle_open_error cfg v _
    (by rw [hs]; exact mesh_surfaces_open_error_head cfg bad rest hbad)

/-- Witness for the amended C8. -/
theorem c8_propagates_witness :
    mesh_vehicle_open cfgW vehBad
      = Except.error "need at least one array to concatenate" :=
  c8_propagates cfgW vehBad surfBad [surfW] rfl (by decide)

/-! ## C5 -/

theorem getI_map {α β : Type} [Inhabited α] [Inhabited β] (f : α → β)
    (l : List α) {k : ℕ} (h : k < l.length) :
    (l.map f).getI k = f (l.getI k) := by
  rw [getI_lt _ (by simpa using h), getI_lt _ h, List.getElem_map]

theorem mirror_open_view_eq_map (g : Grid) :
    mirror_open_view g = g.map (fun row => (row.map neg_y).reverse) := by
  simp only [mirror_open_view, flip_winding, neg_y_grid, List.map_map]
  rfl

/-- C5 (amended): in the view/export pipeline (`process_component` and
`get_grid` in `designer.py`) the mirroring of an open structured grid does
reverse the chordwise index ordering after negating y: entry `(i, j)` of
the mirrored grid is the y-negation of entry `(i, n-1-j)` of the original
grid.  `mesh_vehicle` itself, however, emits the open mirrored copy with
y negated only (see the counterexample). -/
theorem c5_view_mirror (g : Grid) (i j : ℕ)
    (hi : i < g.length) (hj : j < (g.getI i).length) :
    ((mirror_open_view g).getI i).getI j
      = neg_y ((g.getI i).getI ((g.getI i).length - 1 - j)) := by
  rw [mirror_open_view_eq_map, getI_map _ _ hi]
  have hj' : j < ((g.getI i).map neg_y).reverse.length := by simpa using hj
  rw [getI_lt _ hj', List.getElem_reverse, List.getElem_map]
  have hlt : (g.getI i).length - 1 - j < (g.getI i).length := by omega
  rw [getI_lt _ hlt]
  congr 1
  simp

/-- Witness for the amended C5 on a concrete 1×2 grid. -/
theorem c5_view_mirror_witness :
    (0 : ℕ) < ([[⟨1, 2, 3⟩, ⟨4, 5, 6⟩]] : Grid).length ∧
    (0 : ℕ) < (([[⟨1, 2, 3⟩, ⟨4, 5, 6⟩]] : Grid).getI 0).length ∧
    ((mirror_open_view [[⟨1, 2, 3⟩, ⟨4, 5, 6⟩]]).getI 0).getI 0
      = neg_y ((([[⟨1, 2, 3⟩, ⟨4, 5, 6⟩]] : Grid).getI 0).getI
          ((([[⟨1, 2, 3⟩, ⟨4, 5, 6⟩]] : Grid).getI 0).length - 1 - 0)) :=
  ⟨by decide, by decide,
    c5_view_mirror [[⟨1, 2, 3⟩, ⟨4, 5, 6⟩]] 0 0 (by decide) (by decide)⟩

theorem x_at_3_1 : x_at 3 1 = 1 / 2 := by
  have hb : beta_at 3 1 = Real.pi / 2 := by
    rw [beta_at]
    norm_num
  rw [x_at, hb, Real.cos_pi_div_two]
  norm_num

theorem yt_mid_pos : 0 < yt_poly 0.12 (1 / 2) := by
  have hs : (0.7 : ℝ) < Real.sqrt (1 / 2) := by
    have h2 : Real.sqrt (1 / 2 : ℝ) ^ 2 = 1 / 2 := Real.sq_sqrt (by norm_num)
    nlinarith [Real.sqrt_nonneg (1 / 2 : ℝ)]
  rw [yt_poly]
  nlinarith [hs]

theorem upper_mid : upper_at 3 stB1 1 = (x_at 3 1, yt_poly 0.12 (x_at 3 1)) := by
  simp [upper_at, yt_at, theta_at, dyc_at, yc_at, stB1, lt_irrefl]

theorem lower_mid : lower_at 3 stB1 1 = (x_at 3 1, -yt_poly 0.12 (x_at 3 1)) := by
  simp [lower_at, yt_at, theta_at, dyc_at, yc_at, stB1, lt_irrefl]

theorem position_point_stB1 (c : Point3) : position_point stB1 c = c := by
  cases c
  simp [position_point, stB1, radians]

theorem gridB_eq : gridB = loft_segment cfgB stB1 stB2 := by
  have h1 : gridB = transform_grid surfB (loft_segment cfgB stB1 stB2) := by
    show transform_grid surfB (loft_segments cfgB surfB.stations).flatten = _
    rw [show surfB.stations = [stB1, stB2] from rfl, loft_segments_two]
    simp
  rw [h1, transform_grid_id _ _ rfl rfl rfl rfl]

/-- C5 (counterexample): `mesh_vehicle` (solid=False) emits the mirrored
open instance with only the y-coordinates negated; the chordwise index
ordering is not reversed.  For the concrete mirrored 2-station wing the
emitted mirror grid is `neg_y_grid gridB`, and it differs from the grid
`flip_winding (neg_y_grid gridB)` that the claim asserts is emitted. -/
theorem c5_cex :
    mesh_vehicle_open cfgB vehB
        = Except.ok [("Wing_B", gridB), ("Wing_B_Mirror", neg_y_grid gridB)] ∧
    neg_y_grid gridB ≠ flip_winding (neg_y_grid gridB) := by
  refine ⟨rfl, ?_⟩
  intro heq
  have hh : gridB.head?
      = some (position_profile (get_airfoil_coords cfgB.chordRes stB1) stB1) := by
    rw [gridB_eq]
    exact loft_segment_head? cfgB stB1 stB2 (by decide)
  obtain ⟨tl, htl⟩ : ∃ tl, gridB
      = position_profile (get_airfoil_coords cfgB.chordRes stB1) stB1 :: tl := by
    cases hg : gridB with
    | nil =>
      rw [hg] at hh
      simp at hh
    | cons a t =>
      rw [hg] at hh
      simp only [List.head?_cons, Option.some.injEq] at hh
      exact ⟨t, by rw [hh]⟩
  rw [htl] at heq
  simp only [neg_y_grid, flip_winding, List.map_cons, List.cons.injEq] at heq
  obtain ⟨hhead, -⟩ := heq
  have hlen : (position_profile (get_airfoil_coords cfgB.chordRes stB1) stB1).length
      = 5 := by
    rw [length_position_profile, length_get_airfoil_coords]
    decide
  have hmaplen :
      ((position_profile (get_airfoil_coords cfgB.chordRes stB1) stB1).map
        neg_y).length = 5 := by
    simpa using hlen
  have h13 :
      ((position_profile (get_airfoil_coords cfgB.chordRes stB1) stB1).map
          neg_y).getI 1
        = ((position_profile (get_airfoil_coords cfgB.chordRes stB1) stB1).map
          neg_y).getI 3 := by
    conv_lhs => rw [hhead]
    rw [getI_lt _ (show (1 : ℕ) <
      (((position_profile (get_airfoil_coords cfgB.chordRes stB1) stB1).map
        neg_y).reverse).length by rw [List.length_reverse, hmaplen]; omega)]
    rw [List.getElem_reverse]
    rw [getI_lt _ (show (3 : ℕ) <
      ((position_profile (get_airfoil_coords cfgB.chordRes stB1) stB1).map
        neg_y).length by rw [hmaplen]; omega)]
    congr 1
  have h1lt : (1 : ℕ)
      < (position_profile (get_airfoil_coords cfgB.chordRes stB1) stB1).length := by
    rw [hlen]
    omega
  have h3lt : (3 : ℕ)
      < (position_profile (get_airfoil_coords cfgB.chordRes stB1) stB1).length := by
    rw [hlen]
    omega
  rw [getI_map neg_y _ h1lt, getI_map neg_y _ h3lt] at h13
  have h13' : (position_profile (get_airfoil_coords cfgB.chordRes stB1) stB1).getI 1
      = (position_profile (get_airfoil_coords cfgB.chordRes stB1) stB1).getI 3 := by
    have hcc := congrArg neg_y h13
    simpa [neg_y_neg_y] using hcc
  have hcl : (get_airfoil_coords cfgB.chordRes stB1).length = 5 := by
    rw [length_get_airfoil_coords]
    decide
  have h1lc : (1 : ℕ) < (get_airfoil_coords cfgB.chordRes stB1).length := by
    rw [hcl]
    omega
  have h3lc : (3 : ℕ) < (get_airfoil_coords cfgB.chordRes stB1).length := by
    rw [hcl]
    omega
  simp only [position_profile] at h13'
  rw [getI_map _ _ h1lc, getI_map _ _ h3lc, position_point_stB1,
    position_point_stB1] at h13'
  have hll : (airfoil_loop cfgB.chordRes stB1).length = 5 := by
    rw [length_airfoil_loop]
    decide
  have h1ll : (1 : ℕ) < (airfoil_loop cfgB.chordRes stB1).length := by
    rw [hll]
    omega
  have h3ll : (3 : ℕ) < (airfoil_loop cfgB.chordRes stB1).length := by
    rw [hll]
    omega
  simp only [get_airfoil_coords] at h13'
  rw [getI_map _ _ h1ll, getI_map _ _ h3ll] at h13'
  rw [show (airfoil_loop cfgB.chordRes stB1).getI 1 = upper_at 3 stB1 1 from rfl,
    show (airfoil_loop cfgB.chordRes stB1).getI 3 = lower_at 3 stB1 1 from rfl]
    at h13'
  rw [upper_mid, lower_mid] at h13'
  have hz := congrArg Point3.z h13'
  simp only at hz
  rw [x_at_3_1] at hz
  have hpos := yt_mid_pos
  linarith

/-! ## C7 -/

theorem mem_refine_percents {count x : ℕ} (hx : x ∈ refine_percents count) :
    10 ≤ x ∧ x < 40 := by
  rw [refine_percents, List.mem_map] at hx
  obtain ⟨i, hi, rfl⟩ := hx
  rw [List.mem_range] at hi
  have hc : 0 < count := by omega
  obtain ⟨q, hq, hlt⟩ : ∃ q, i * 30 / count = q ∧ q < 30 :=
    ⟨_, rfl, by rw [Nat.div_lt_iff_lt_mul hc]; omega⟩
  rw [hq]
  omega

theorem mem_merge_percents {n x : ℕ} (hx : x ∈ merge_percents n) :
    40 ≤ x ∧ x < 90 := by
  rw [merge_percents, List.mem_map] at hx
  obtain ⟨i, hi, rfl⟩ := hx
  rw [List.mem_range] at hi
  have hn : 0 < n := by omega
  obtain ⟨q, hq, hlt⟩ : ∃ q, (i + 1) * 50 / n = q ∧ q < 50 :=
    ⟨_, rfl, by rw [Nat.div_lt_iff_lt_mul hn]; omega⟩
  rw [hq]
  omega

theorem refine_percents_pairwise (count : ℕ) :
    List.Pairwise (· ≤ ·) (refine_percents count) := by
  rw [refine_percents, List.pairwise_map]
  refine (List.pairwise_lt_range count).imp ?_
  intro a b hab
  have h30 : a * 30 ≤ b * 30 := Nat.mul_le_mul_right 30 (le_of_lt hab)
  exact Nat.add_le_add_left (Nat.div_le_div_right h30) 10

theorem merge_percents_pairwise (n : ℕ) :
    List.Pairwise (· ≤ ·) (merge_percents n) := by
  rw [merge_percents, List.pairwise_map]
  refine (List.pairwise_lt_range (n - 1)).imp ?_
  intro a b hab
  have h50 : (a + 1) * 50 ≤ (b + 1) * 50 := Nat.mul_le_mul_right 50 (by omega)
  exact Nat.add_le_add_left (Nat.div_le_div_right h50) 40

theorem run_union_percents_pairwise (count n : ℕ) :
    List.Pairwise (· ≤ ·) (run_union_percents count n) := by
  rw [run_union_percents, List.pairwise_cons]
  constructor
  · intro b hb
    rcases List.mem_append.1 hb with h | h
    · exact (mem_refine_percents h).1
    · have := (mem_merge_percents h).1
      omega
  · rw [List.pairwise_append]
    refine ⟨refine_percents_pairwise count, merge_percents_pairwise n, ?_⟩
    intro a ha b hb
    have h1 := (mem_refine_percents ha).2
    have h2 := (mem_merge_percents hb).1
    omega

/-- C7 (counterexample): with 3 blocks refining into 3 solids,
`run_heavy_union` reports the percent sequence `[10, 10, 20, 30, 56, 73]`;
the last reported percent is 73, not 100 — no 100% callback is emitted. -/
theorem c7_cex :
    (run_union_percents 3 3).getLast? = some 73 ∧ (73 : ℕ) ≠ 100 := by
  constructor
  · decide
  · decide

/-- C7 (amended): the percent values passed to `progress_callback` by
`run_heavy_union` are monotonically non-decreasing, but every reported
percent — in particular the last — is strictly below 100; the sequence
never ends at 100. -/
theorem c7_progress (count n : ℕ) :
    List.Chain' (· ≤ ·) (run_union_percents count n) ∧
    (run_union_percents count n).all (fun x => decide (x < 100)) = true := by
  constructor
  · exact (run_union_percents_pairwise count n).chain'
  · rw [List.all_eq_true]
    intro x hx
    rw [decide_eq_true_eq]
    rw [run_union_percents] at hx
    rcases List.mem_cons.1 hx with h | h
    · omega
    · rcases List.mem_append.1 h with h | h
      · have := (mem_refine_percents h).2
        omega
      · have := (mem_merge_percents h).2
        omega

end WIG
